import Mathlib

/-!
Shallow embedding of `Asm::TimerObjectReactor`
(src/src/asm/timerobjectreactor.hpp) from the AbstractStateMachine
repository, together with the parts of its environment the reactor
touches: the epoll interest set, the stop eventfd, the service thread
and the hub trigger calls.

Modelling conventions:
  * File descriptors are `Int` (the source keeps `-1` for invalid
    descriptors in `_epfd` and `_evtfd`).
  * A `DataObject<TimerObject>` is identified by a container id `cid`
    together with the kernel timer handle `fd` that
    `dot.get([](const TimerObject& t){ return t._fd; })` extracts.
  * `_notify` (a `std::unordered_map<int, reference_wrapper<...>>`) is an
    association list with unique keys; `insert` is a no-op when the key
    is already present, exactly like `std::unordered_map::insert`.
  * The kernel epoll state is the interest ("armed") set of descriptors.
    `EPOLL_CTL_ADD` fails when the epoll descriptor is invalid (EBADF),
    when the fd is already armed (EEXIST), or when an environment oracle
    says so (ENOSPC, ENOMEM, ...). `EPOLL_CTL_DEL` fails when the epoll
    descriptor is invalid (EBADF) or the fd is not armed (ENOENT);
    deleting an armed fd through a valid epoll descriptor succeeds.
  * Logging has no effect on the state and is not modelled.
-/

namespace TimerReactor

/-- A `DataObject<TimerObject>` as the reactor sees it: the identity of
the container (`cid`) and the kernel timer handle stored in its
`TimerObject` payload (`fd`). -/
structure DataObject where
  cid : Nat
  fd : Int
  deriving DecidableEq

/-- Keys of the registration map `_notify`. -/
def keysOf : List (Int × Nat) → List Int
  | [] => []
  | (k, _) :: rest => k :: keysOf rest

/-- Lookup in the registration map, as `_notify.find(fd)`. -/
def lookupA : List (Int × Nat) → Int → Option Nat
  | [], _ => none
  | (k, v) :: rest, fd => if k = fd then some v else lookupA rest fd

/-- Map insertion with `std::unordered_map::insert` semantics: a no-op
when the key is already present. -/
def insertA (m : List (Int × Nat)) (fd : Int) (c : Nat) : List (Int × Nat) :=
  if fd ∈ keysOf m then m else (fd, c) :: m

/-- Map erasure by key, as `_notify.erase(fd)`. -/
def eraseA : List (Int × Nat) → Int → List (Int × Nat)
  | [], _ => []
  | (k, v) :: rest, fd => if k = fd then eraseA rest fd else (k, v) :: eraseA rest fd

/-- Removal of a descriptor from the kernel interest set. -/
def removeFd : List Int → Int → List Int
  | [], _ => []
  | x :: rest, fd => if x = fd then removeFd rest fd else x :: removeFd rest fd

/-- Realtime priority of the service thread, `static constexpr int
RT_PRIO = 31` at timerobjectreactor.hpp:31, with the source comment
that it is at least one higher than the DataObjectReactor priority. -/
def RT_PRIO : Nat := 31

/-- Modelled from the spec: the dispatch priority of the
DataObjectReactor (the NotificationHub), whose source is not under
src/. The spec fixes no number, only a relation; the repository fixes
the relation in the sources it does ship: timerobjectreactor.hpp:31
chooses the timer priority 31 as at least one higher than the DOR
priority, and main.cpp:25 uses 30 as the realtime priority of the other
worker threads. Hence 30. -/
def DOR_RT_PRIO : Nat := 30

/-- State of one `TimerObjectReactor` instance together with the kernel
state it owns. `epfdValid` is true when `_epfd` refers to an open epoll
instance; `evtfd` is the value of `_evtfd`; `evtfdOpen` is true while
that descriptor is open; `thrdJoinable` records whether the service
thread was spawned; `threadPrio` is the realtime priority the service
thread actually runs at (0 = default); `notify` is `_notify`; `armed`
is the epoll interest set. -/
structure TORState where
  epfdValid : Bool
  evtfd : Int
  evtfdOpen : Bool
  thrdJoinable : Bool
  threadPrio : Nat
  notify : List (Int × Nat)
  armed : List Int
  deriving DecidableEq

/-- Outcomes of the constructor steps that depend on the environment:
whether `eventfd` succeeds, whether `epoll_create1` succeeds, whether
the `EPOLL_CTL_ADD` of the stop descriptor succeeds, and whether
`pthread_setschedparam` succeeds. -/
structure ConsOracle where
  eventfdOk : Bool
  epollOk : Bool
  armStopOk : Bool
  prioOk : Bool

/-- Constructor `TimerObjectReactor::TimerObjectReactor` on Linux
(timerobjectreactor.hpp:98-139). Each failing step logs, closes the
descriptors created so far and returns, leaving the instance with no
service thread. Only when all three kernel steps succeed is the thread
spawned and its priority raised (a priority failure is only a warning).
`e` is the descriptor value `eventfd` returns on success. -/
def constructModel (o : ConsOracle) (e : Int) : TORState :=
  if o.eventfdOk = false then
    { epfdValid := false, evtfd := -1, evtfdOpen := false, thrdJoinable := false,
      threadPrio := 0, notify := [], armed := [] }
  else if o.epollOk = false then
    { epfdValid := false, evtfd := e, evtfdOpen := false, thrdJoinable := false,
      threadPrio := 0, notify := [], armed := [] }
  else if o.armStopOk = false then
    { epfdValid := false, evtfd := e, evtfdOpen := false, thrdJoinable := false,
      threadPrio := 0, notify := [], armed := [] }
  else
    { epfdValid := true, evtfd := e, evtfdOpen := true, thrdJoinable := true,
      threadPrio := if o.prioOk then RT_PRIO else 0, notify := [], armed := [e] }

/-- The fully successful constructor oracle. -/
def allOk : ConsOracle := { eventfdOk := true, epollOk := true, armStopOk := true, prioOk := true }

/-- Observable actions of the registration protocol, in the order they
are performed; used to state in-which-order properties. -/
inductive Act where
  | mapInsert (fd : Int)
  | mapErase (fd : Int)
  | kernelArm (fd : Int) (ok : Bool)
  | kernelDisarm (fd : Int) (ok : Bool)
  deriving DecidableEq

/-- The `epoll_ctl(_epfd, EPOLL_CTL_ADD, fd, &evt)` call: fails on an
invalid epoll descriptor (EBADF), on an fd that is already armed
(EEXIST), or when the environment oracle injects a failure (ENOSPC,
ENOMEM, ...). -/
def armAttempt (valid : Bool) (armed : List Int) (oracleFail : Bool) (fd : Int) :
    Bool × List Int :=
  if valid = false then (false, armed)
  else if fd ∈ armed then (false, armed)
  else if oracleFail then (false, armed)
  else (true, fd :: armed)

/-- The `epoll_ctl(_epfd, EPOLL_CTL_DEL, fd, 0)` call: fails on an
invalid epoll descriptor (EBADF) or an fd that is not armed (ENOENT);
succeeds on an armed fd. -/
def disarmAttempt (valid : Bool) (armed : List Int) (fd : Int) : Bool × List Int :=
  if valid = false then (false, armed)
  else if fd ∈ armed then (true, removeFd armed fd)
  else (false, armed)

/-- `TimerObjectReactor::registerTimer` on Linux
(timerobjectreactor.hpp:169-193): extract the fd, insert into `_notify`
under the lock, attempt `EPOLL_CTL_ADD`; on failure erase the entry
under the lock again and return false, otherwise return true. Returns
the result, the new state and the trace of actions in source order. -/
def registerTimer (s : TORState) (dot : DataObject) (oracleFail : Bool) :
    Bool × TORState × List Act :=
  let fd := dot.fd
  let m1 := insertA s.notify fd dot.cid
  let a := armAttempt s.epfdValid s.armed oracleFail fd
  if a.1 then
    (true, { s with notify := m1, armed := a.2 },
      [Act.mapInsert fd, Act.kernelArm fd true])
  else
    (false, { s with notify := eraseA m1 fd, armed := a.2 },
      [Act.mapInsert fd, Act.kernelArm fd false, Act.mapErase fd])

/-- `TimerObjectReactor::unregisterTimer` on Linux
(timerobjectreactor.hpp:195-212): extract the fd, attempt
`EPOLL_CTL_DEL` (its failure only flips the result to false), then
erase the map entry under the lock in any case. -/
def unregisterTimer (s : TORState) (dot : DataObject) : Bool × TORState × List Act :=
  let fd := dot.fd
  let d := disarmAttempt s.epfdValid s.armed fd
  (d.1, { s with notify := eraseA s.notify fd, armed := d.2 },
    [Act.kernelDisarm fd d.1, Act.mapErase fd])

/-- `registerTimer` when `__linux__` is not defined: the whole body
between `#ifdef` and `#endif` disappears, leaving only the fd
extraction and `return true` (timerobjectreactor.hpp:192 is outside the
conditional block). -/
def registerTimerNoLinux (s : TORState) (dot : DataObject) : Bool × TORState :=
  let _fd := dot.fd
  (true, s)

/-- `unregisterTimer` when `__linux__` is not defined: `ret` stays at
its initialisation value `true` and the state is untouched. -/
def unregisterTimerNoLinux (s : TORState) (dot : DataObject) : Bool × TORState :=
  let _fd := dot.fd
  (true, s)

/-- The constructor when `__linux__` is not defined: only the member
initialisers run, leaving `_epfd = -1`, `_evtfd = -1`, no thread and an
empty map. -/
def constructNoLinux : TORState :=
  { epfdValid := false, evtfd := -1, evtfdOpen := false, thrdJoinable := false,
    threadPrio := 0, notify := [], armed := [] }

/-- Outcome of running the destructor: either it completes (recording
the result of the stop write, `none` when no write was attempted), or
the process is terminated because `_thrd.join()` was called on a thread
object that never started a thread (`std::system_error` escaping the
implicitly `noexcept` destructor). -/
inductive DtorOutcome where
  | completed (stopWrite : Option Bool)
  | terminated
  deriving DecidableEq

/-- `TimerObjectReactor::~TimerObjectReactor` on Linux
(timerobjectreactor.hpp:149-167): write the stop sentinel to `_evtfd`
(failure is only logged), then `_thrd.join()` unconditionally. When the
constructor failed, no thread was ever spawned, `_thrd` is not
joinable, and the join throws inside the noexcept destructor,
terminating the process. -/
def destructModel (s : TORState) : DtorOutcome :=
  let stopWrite := s.evtfdOpen
  if s.thrdJoinable then DtorOutcome.completed (some stopWrite)
  else DtorOutcome.terminated

/-- The destructor when `__linux__` is not defined: the write, the
join and the closes are all inside the conditional block, so it only
logs and completes without attempting the stop write. -/
def destructNoLinux : DtorOutcome := DtorOutcome.completed none

/-- One register or unregister call, with the environment oracle for
the arm attempt. -/
inductive Op where
  | reg (dot : DataObject) (oracleFail : Bool)
  | unreg (dot : DataObject)
  deriving DecidableEq

/-- Effect of one call on the reactor state. -/
def step (s : TORState) : Op → TORState
  | Op.reg dot oracleFail => (registerTimer s dot oracleFail).2.1
  | Op.unreg dot => (unregisterTimer s dot).2.1

/-- Effect of a sequence of calls. -/
def runOps (s : TORState) (ops : List Op) : TORState := ops.foldl step s

/-- Side conditions of one call: its handle differs from the stop
descriptor, and a register call targets a handle that is not currently
armed (in particular, not currently registered). -/
def stepOkB (s : TORState) : Op → Bool
  | Op.reg dot _ => decide (dot.fd ≠ s.evtfd) && decide (dot.fd ∉ s.armed)
  | Op.unreg dot => decide (dot.fd ≠ s.evtfd)

/-- Side conditions along a whole sequence of calls. -/
def okRun : TORState → List Op → Bool
  | _, [] => true
  | s, op :: ops => stepOkB s op && okRun (step s op) ops

/-- The registration-map invariant: the epoll descriptor is open and a
descriptor is a key of `_notify` exactly when it is armed at the epoll
instance and is not the always-armed stop descriptor. -/
def Inv (s : TORState) : Prop :=
  s.epfdValid = true ∧
    ∀ fd : Int, fd ∈ keysOf s.notify ↔ (fd ∈ s.armed ∧ fd ≠ s.evtfd)

/-- One readiness event as `epoll_wait` reports it: the descriptor in
`evt[i].data.fd` and whether `evt[i].events` has `EPOLLIN` set. -/
structure Event where
  fd : Int
  epollin : Bool
  deriving DecidableEq

/-- Result of the 8-byte `read` of a ready descriptor: either the
counter value, or a short/failed read (return value different from
`sizeof(uint64_t)`). -/
inductive ReadResult where
  | ok (elapsed : Nat)
  | short
  deriving DecidableEq

/-- What processing one event does: terminate the service loop, or move
on to the next event after making the listed hub trigger calls
(identified by the container id passed to `_dor.trigger`). -/
inductive StepResult where
  | stop
  | next (triggers : List Nat)
  deriving DecidableEq

/-- Processing of one event in `TimerObjectReactor::run`
(timerobjectreactor.hpp:67-90): events without `EPOLLIN` are skipped;
the 8-byte counter read happens first and a short read logs and skips
the event; then, if the descriptor is the stop descriptor and the value
read is nonzero, the loop returns; otherwise the map is consulted under
the lock and, when the descriptor is found, the lock is released and
`_dor.trigger` is called once for the owning container. -/
def processEvent (s : TORState) (e : Event) (r : ReadResult) : StepResult :=
  if e.epollin = false then StepResult.next []
  else
    match r with
    | ReadResult.short => StepResult.next []
    | ReadResult.ok elapsed =>
      if e.fd = s.evtfd ∧ 0 < elapsed then StepResult.stop
      else
        match lookupA s.notify e.fd with
        | some c => StepResult.next [c]
        | none => StepResult.next []

/-- Follows the words of the spec (section 4.3, steps 3-4) for
comparison with `processEvent`: check whether the handle is the stop
handle signaling a nonzero pending count first, and only otherwise read
the counter. `pending` is the kernel-side counter value the read would
observe on success. -/
def processEventSpecOrder (s : TORState) (e : Event) (pending : Nat) (r : ReadResult) :
    StepResult :=
  if e.epollin = false then StepResult.next []
  else if e.fd = s.evtfd ∧ 0 < pending then StepResult.stop
  else
    match r with
    | ReadResult.short => StepResult.next []
    | ReadResult.ok _ =>
      match lookupA s.notify e.fd with
      | some c => StepResult.next [c]
      | none => StepResult.next []

/-- Processing of the `evt_cnt` events of one `epoll_wait` round: a
`return` from the middle of the `for` loop abandons the remaining
events; otherwise the trigger calls accumulate in order. Returns the
trigger calls made and whether the loop terminated. -/
def processEvents (s : TORState) : List (Event × ReadResult) → List Nat × Bool
  | [] => ([], false)
  | (e, r) :: rest =>
    match processEvent s e r with
    | StepResult.stop => ([], true)
    | StepResult.next ts =>
      let tail := processEvents s rest
      (ts ++ tail.1, tail.2)

/-! Helper lemmas about the registration map and the interest set. -/

theorem mem_keysOf_eraseA (m : List (Int × Nat)) (fd x : Int) :
    x ∈ keysOf (eraseA m fd) ↔ (x ∈ keysOf m ∧ x ≠ fd) := by
  induction m with
  | nil => simp [eraseA, keysOf]
  | cons p rest ih =>
    obtain ⟨k, v⟩ := p
    by_cases hk : k = fd
    · subst hk
      simp only [eraseA, if_pos rfl, keysOf, List.mem_cons, ih]
      tauto
    · simp only [eraseA, if_neg hk, keysOf, List.mem_cons, ih]
      constructor
      · rintro (rfl | h)
        · exact ⟨Or.inl rfl, hk⟩
        · exact ⟨Or.inr h.1, h.2⟩
      · rintro ⟨rfl | h, hne⟩
        · exact Or.inl rfl
        · exact Or.inr ⟨h, hne⟩

theorem mem_keysOf_insertA (m : List (Int × Nat)) (fd : Int) (c : Nat) (x : Int) :
    x ∈ keysOf (insertA m fd c) ↔ (x ∈ keysOf m ∨ x = fd) := by
  by_cases h : fd ∈ keysOf m
  · simp only [insertA, if_pos h]
    constructor
    · exact Or.inl
    · rintro (hx | rfl)
      · exact hx
      · exact h
  · simp only [insertA, if_neg h, keysOf, List.mem_cons]
    tauto

theorem mem_removeFd (l : List Int) (fd x : Int) :
    x ∈ removeFd l fd ↔ (x ∈ l ∧ x ≠ fd) := by
  induction l with
  | nil => simp [removeFd]
  | cons a rest ih =>
    by_cases ha : a = fd
    · subst ha
      simp only [removeFd, if_pos rfl, List.mem_cons, ih]
      tauto
    · simp only [removeFd, if_neg ha, List.mem_cons, ih]
      constructor
      · rintro (rfl | h)
        · exact ⟨Or.inl rfl, ha⟩
        · exact ⟨Or.inr h.1, h.2⟩
      · rintro ⟨rfl | h, hne⟩
        · exact Or.inl rfl
        · exact Or.inr ⟨h, hne⟩

theorem lookupA_insertA_self (m : List (Int × Nat)) (fd : Int) (c : Nat)
    (h : fd ∉ keysOf m) : lookupA (insertA m fd c) fd = some c := by
  simp [insertA, h, lookupA]

theorem insertA_noop (m : List (Int × Nat)) (fd : Int) (c : Nat)
    (h : fd ∈ keysOf m) : insertA m fd c = m := by
  simp [insertA, h]

/-- Unfolding equation of `registerTimer` with the arm attempt exposed. -/
theorem registerTimer_eq (s : TORState) (dot : DataObject) (oracleFail : Bool) :
    registerTimer s dot oracleFail =
      if (armAttempt s.epfdValid s.armed oracleFail dot.fd).1 then
        (true, { s with notify := insertA s.notify dot.fd dot.cid,
                        armed := (armAttempt s.epfdValid s.armed oracleFail dot.fd).2 },
          [Act.mapInsert dot.fd, Act.kernelArm dot.fd true])
      else
        (false, { s with notify := eraseA (insertA s.notify dot.fd dot.cid) dot.fd,
                         armed := (armAttempt s.epfdValid s.armed oracleFail dot.fd).2 },
          [Act.mapInsert dot.fd, Act.kernelArm dot.fd false, Act.mapErase dot.fd]) := rfl

theorem step_evtfd (s : TORState) (op : Op) : (step s op).evtfd = s.evtfd := by
  cases op with
  | reg dot oracleFail =>
    simp only [step, registerTimer_eq]
    by_cases h : (armAttempt s.epfdValid s.armed oracleFail dot.fd).1 <;> simp [h]
  | unreg dot => rfl

theorem runOps_evtfd (s : TORState) (ops : List Op) : (runOps s ops).evtfd = s.evtfd := by
  induction ops generalizing s with
  | nil => rfl
  | cons op rest ih =>
    simp only [runOps, List.foldl_cons]
    rw [show List.foldl step (step s op) rest = runOps (step s op) rest from rfl,
      ih (step s op), step_evtfd]

/-- One register or unregister call preserves the registration-map
invariant, provided its handle is not the stop descriptor and a
register call targets a handle that is not currently armed. -/
theorem inv_preserved (s : TORState) (op : Op) (hInv : Inv s) (hok : stepOkB s op = true) :
    Inv (step s op) := by
  obtain ⟨hvalid, hiff⟩ := hInv
  cases op with
  | reg dot oracleFail =>
    simp only [stepOkB, Bool.and_eq_true, decide_eq_true_eq] at hok
    obtain ⟨hne, hnarm⟩ := hok
    by_cases horacle : oracleFail
    · have ha : armAttempt s.epfdValid s.armed oracleFail dot.fd = (false, s.armed) := by
        simp [armAttempt, hvalid, hnarm, horacle]
      simp only [step, registerTimer_eq, ha, Bool.false_eq_true, if_false]
      refine ⟨hvalid, fun x => ?_⟩
      rw [mem_keysOf_eraseA, mem_keysOf_insertA]
      constructor
      · rintro ⟨hx | rfl, hxfd⟩
        · exact (hiff x).1 hx
        · exact absurd rfl hxfd
      · intro hx
        by_cases hxeq : x = dot.fd
        · subst hxeq
          exact absurd hx.1 hnarm
        · exact ⟨Or.inl ((hiff x).2 hx), hxeq⟩
    · have ha : armAttempt s.epfdValid s.armed oracleFail dot.fd = (true, dot.fd :: s.armed) := by
        simp [armAttempt, hvalid, hnarm, horacle]
      simp only [step, registerTimer_eq, ha, if_true]
      refine ⟨hvalid, fun x => ?_⟩
      rw [mem_keysOf_insertA]
      simp only [List.mem_cons]
      constructor
      · rintro (hx | rfl)
        · obtain ⟨hxa, hxe⟩ := (hiff x).1 hx
          exact ⟨Or.inr hxa, hxe⟩
        · exact ⟨Or.inl rfl, hne⟩
      · rintro ⟨rfl | hxa, hxe⟩
        · exact Or.inr rfl
        · exact Or.inl ((hiff x).2 ⟨hxa, hxe⟩)
  | unreg dot =>
    simp only [stepOkB, decide_eq_true_eq] at hok
    by_cases harm : dot.fd ∈ s.armed
    · have hd : disarmAttempt s.epfdValid s.armed dot.fd = (true, removeFd s.armed dot.fd) := by
        simp [disarmAttempt, hvalid, harm]
      simp only [step, unregisterTimer, hd]
      refine ⟨hvalid, fun x => ?_⟩
      rw [mem_keysOf_eraseA, mem_removeFd]
      constructor
      · rintro ⟨hx, hxfd⟩
        obtain ⟨hxa, hxe⟩ := (hiff x).1 hx
        exact ⟨⟨hxa, hxfd⟩, hxe⟩
      · rintro ⟨⟨hxa, hxfd⟩, hxe⟩
        exact ⟨(hiff x).2 ⟨hxa, hxe⟩, hxfd⟩
    · have hd : disarmAttempt s.epfdValid s.armed dot.fd = (false, s.armed) := by
        simp [disarmAttempt, hvalid, harm]
      simp only [step, unregisterTimer, hd]
      refine ⟨hvalid, fun x => ?_⟩
      rw [mem_keysOf_eraseA]
      constructor
      · rintro ⟨hx, _⟩
        exact (hiff x).1 hx
      · intro hx
        refine ⟨(hiff x).2 hx, fun hxeq => ?_⟩
        subst hxeq
        exact harm hx.1

/-- The side conditions of a concatenation hold on the early part. -/
theorem okRun_append_elim (s : TORState) (pre suf : List Op)
    (h : okRun s (pre ++ suf) = true) : okRun s pre = true := by
  induction pre generalizing s with
  | nil => rfl
  | cons op ops ih =>
    simp only [List.cons_append, okRun, Bool.and_eq_true] at h
    simp only [okRun, Bool.and_eq_true]
    exact ⟨h.1, ih _ h.2⟩

/-- The registration-map invariant holds along any admissible run. -/
theorem inv_runOps (s : TORState) (ops : List Op) (hInv : Inv s) (hok : okRun s ops = true) :
    Inv (runOps s ops) := by
  induction ops generalizing s with
  | nil => exact hInv
  | cons op rest ih =>
    simp only [okRun, Bool.and_eq_true] at hok
    simp only [runOps, List.foldl_cons]
    exact ih (step s op) (inv_preserved s op hInv hok.1) hok.2

/-- The invariant holds right after a fully successful construction. -/
theorem inv_init (e : Int) : Inv (constructModel allOk e) := by
  refine ⟨rfl, fun fd => ?_⟩
  simp [constructModel, allOk, keysOf]

/-! Claim theorems. -/

/-- C1 (amended): for any sequence of register/unregister calls whose
handles differ from the stop descriptor and where no register call
targets a currently armed handle, after each completed call the key set
of the registration map equals the set of descriptors armed at the
epoll instance other than the always-armed stop descriptor, and the map
never retains an entry whose arming failed. -/
theorem registration_map_matches_armed (e : Int) (ops pre suf : List Op)
    (hsplit : ops = pre ++ suf)
    (hok : okRun (constructModel allOk e) ops = true) :
    ∀ fd : Int, fd ∈ keysOf (runOps (constructModel allOk e) pre).notify ↔
      (fd ∈ (runOps (constructModel allOk e) pre).armed ∧ fd ≠ e) := by
  subst hsplit
  have hpre : okRun (constructModel allOk e) pre = true := okRun_append_elim _ _ _ hok
  have hInv := inv_runOps _ pre (inv_init e) hpre
  have hevt : (runOps (constructModel allOk e) pre).evtfd = e := runOps_evtfd _ _
  intro fd
  have h := hInv.2 fd
  rw [hevt] at h
  exact h

/-- Witness for C1 at a concrete run: after registering the container
with handle 5 on the reactor whose stop descriptor is 0, handle 5 is a
map key exactly when it is armed and differs from 0. -/
theorem registration_map_matches_armed_witness :
    (5 : Int) ∈ keysOf (runOps (constructModel allOk 0) [Op.reg ⟨1, 5⟩ false]).notify ↔
      ((5 : Int) ∈ (runOps (constructModel allOk 0) [Op.reg ⟨1, 5⟩ false]).armed ∧
        (5 : Int) ≠ 0) :=
  registration_map_matches_armed 0 [Op.reg ⟨1, 5⟩ false] [Op.reg ⟨1, 5⟩ false] []
    rfl (by decide) 5

/-- Counterexample to C1 as stated: after constructing the reactor
(stop descriptor 0) and one successful register of the container with
handle 5 — a sequence with pairwise distinct handles — the stop
descriptor is armed at the epoll instance but is not a key of the
registration map, so the key set does not equal the armed set. -/
theorem registration_map_armed_mismatch :
    (0 : Int) ∈ (runOps (constructModel allOk 0) [Op.reg ⟨1, 5⟩ false]).armed ∧
    (0 : Int) ∉ keysOf (runOps (constructModel allOk 0) [Op.reg ⟨1, 5⟩ false]).notify := by
  decide

/-- C2: register inserts the mapping under the lock, then attempts the
kernel arming (the action trace shows the order); when the arming
fails it erases the entry under the lock again and returns false,
leaving the map without the entry; when the arming succeeds it returns
true with the mapping in place; the returned boolean is exactly the
arming outcome. -/
theorem registerTimer_insert_then_arm (s : TORState) (dot : DataObject) (oracleFail : Bool)
    (hfresh : dot.fd ∉ keysOf s.notify) :
    ((registerTimer s dot oracleFail).1 = true →
      lookupA (registerTimer s dot oracleFail).2.1.notify dot.fd = some dot.cid ∧
      (registerTimer s dot oracleFail).2.2 =
        [Act.mapInsert dot.fd, Act.kernelArm dot.fd true]) ∧
    ((registerTimer s dot oracleFail).1 = false →
      dot.fd ∉ keysOf (registerTimer s dot oracleFail).2.1.notify ∧
      (registerTimer s dot oracleFail).2.2 =
        [Act.mapInsert dot.fd, Act.kernelArm dot.fd false, Act.mapErase dot.fd]) ∧
    (registerTimer s dot oracleFail).1 =
      (armAttempt s.epfdValid s.armed oracleFail dot.fd).1 := by
  by_cases h : (armAttempt s.epfdValid s.armed oracleFail dot.fd).1
  · rw [registerTimer_eq, if_pos h]
    exact ⟨fun _ => ⟨lookupA_insertA_self s.notify dot.fd dot.cid hfresh, rfl⟩,
      fun hfalse => Bool.noConfusion hfalse, h.symm⟩
  · rw [registerTimer_eq, if_neg h]
    have hfalse : (armAttempt s.epfdValid s.armed oracleFail dot.fd).1 = false :=
      Bool.eq_false_iff.mpr h
    refine ⟨fun htrue => Bool.noConfusion htrue, fun _ => ⟨?_, rfl⟩, hfalse.symm⟩
    rw [mem_keysOf_eraseA]
    rintro ⟨_, hne⟩
    exact hne rfl

/-- Witness for C2: on the freshly constructed reactor, registering the
container with handle 5 succeeds and leaves the mapping in the map,
with the trace insert-then-arm. -/
theorem registerTimer_insert_then_arm_witness :
    lookupA (registerTimer (constructModel allOk 0) ⟨1, 5⟩ false).2.1.notify 5 = some 1 ∧
    (registerTimer (constructModel allOk 0) ⟨1, 5⟩ false).2.2 =
      [Act.mapInsert 5, Act.kernelArm 5 true] :=
  (registerTimer_insert_then_arm (constructModel allOk 0) ⟨1, 5⟩ false (by decide)).1
    (by decide)

/-- C3: unregister attempts the kernel disarming and then
unconditionally erases the map entry, so the handle is absent from the
map afterwards whatever the disarm outcome, and the returned boolean is
exactly the disarm outcome; the action trace shows the
disarm-then-erase order. -/
theorem unregisterTimer_always_erases (s : TORState) (dot : DataObject) :
    dot.fd ∉ keysOf (unregisterTimer s dot).2.1.notify ∧
    (unregisterTimer s dot).1 = (disarmAttempt s.epfdValid s.armed dot.fd).1 ∧
    (unregisterTimer s dot).2.2 =
      [Act.kernelDisarm dot.fd (unregisterTimer s dot).1, Act.mapErase dot.fd] := by
  refine ⟨?_, rfl, rfl⟩
  simp only [unregisterTimer]
  rw [mem_keysOf_eraseA]
  rintro ⟨_, hne⟩
  exact hne rfl

/-- C4: for a readiness event with `EPOLLIN` on a non-stop descriptor
whose counter read succeeds, the loop makes exactly one hub trigger
call for the owning container when the descriptor is a map key, and
makes zero hub calls and just moves on when it is absent. -/
theorem run_trigger_exactly_once (s : TORState) (e : Event) (n c : Nat)
    (hin : e.epollin = true) (hne : e.fd ≠ s.evtfd) :
    (lookupA s.notify e.fd = some c →
      processEvent s e (ReadResult.ok n) = StepResult.next [c]) ∧
    (lookupA s.notify e.fd = none →
      processEvent s e (ReadResult.ok n) = StepResult.next []) := by
  constructor <;> intro h <;> simp [processEvent, hin, hne, h]

/-- Witness for C4: on a reactor whose map holds handle 5 for container
1, the event on handle 5 triggers exactly container 1. -/
theorem run_trigger_exactly_once_witness :
    processEvent ⟨true, 0, true, true, 31, [(5, 1)], [5, 0]⟩ ⟨5, true⟩ (ReadResult.ok 2) =
      StepResult.next [1] :=
  (run_trigger_exactly_once ⟨true, 0, true, true, 31, [(5, 1)], [5, 0]⟩ ⟨5, true⟩ 2 1
    (by decide) (by decide)).1 (by decide)

/-- C7 (amended): for each ready handle the loop performs the
fixed-width counter read first, also for the stop handle; a short read
skips the event; only then, when the handle is the stop handle and the
value read is nonzero, the loop logs and terminates; for other handles
the value read is discarded (processing does not depend on it). -/
theorem run_reads_counter_before_stop_check (s : TORState) (e : Event) (n : Nat)
    (hin : e.epollin = true) :
    processEvent s e ReadResult.short = StepResult.next [] ∧
    (e.fd = s.evtfd → 0 < n → processEvent s e (ReadResult.ok n) = StepResult.stop) ∧
    (e.fd ≠ s.evtfd → ∀ m : Nat,
      processEvent s e (ReadResult.ok n) = processEvent s e (ReadResult.ok m)) := by
  refine ⟨by simp [processEvent, hin], fun heq hn => by simp [processEvent, hin, heq, hn],
    fun hne m => ?_⟩
  simp [processEvent, hin, hne]

/-- Witness for C7 (amended): on the constructed reactor with stop
descriptor 0, a successfully read stop event with count 1 terminates
the loop. -/
theorem run_reads_counter_before_stop_check_witness :
    processEvent (constructModel allOk 0) ⟨0, true⟩ (ReadResult.ok 1) = StepResult.stop :=
  (run_reads_counter_before_stop_check (constructModel allOk 0) ⟨0, true⟩ 1
    (by decide)).2.1 (by decide) (by decide)

/-- Counterexample to C7 as stated: the claim has the loop check the
stop handle (and terminate on a nonzero pending count) before reading.
On the constructed reactor with stop descriptor 0, a ready stop event
whose pending count is 1 but whose read comes back short makes the code
continue with the next event, while the claimed check-first order would
terminate the loop. -/
theorem run_stop_check_order_mismatch :
    processEvent (constructModel allOk 0) ⟨0, true⟩ ReadResult.short =
      StepResult.next [] ∧
    processEventSpecOrder (constructModel allOk 0) ⟨0, true⟩ 1 ReadResult.short =
      StepResult.stop := by
  decide

/-- C8: a short counter read on a ready handle never makes any hub
trigger call and never terminates the loop: the event is skipped and
processing continues with the remaining events exactly as if the event
had not been there. -/
theorem run_short_read_skips (s : TORState) (e : Event)
    (rest : List (Event × ReadResult)) :
    processEvent s e ReadResult.short = StepResult.next [] ∧
    processEvents s ((e, ReadResult.short) :: rest) = processEvents s rest := by
  have h1 : processEvent s e ReadResult.short = StepResult.next [] := by
    cases hin : e.epollin <;> simp [processEvent, hin]
  refine ⟨h1, ?_⟩
  simp [processEvents, h1]

/-- C10: a register call for a container whose handle is already a map
key (and hence armed): the map insert is a no-op, the arming attempt
fails, the rollback erases the pre-existing entry, the call returns
false, and afterwards the handle is absent from the map while still
armed at the kernel. -/
theorem registerTimer_duplicate_rollback (s : TORState) (dot : DataObject)
    (oracleFail : Bool) (hkey : dot.fd ∈ keysOf s.notify) (harm : dot.fd ∈ s.armed) :
    (registerTimer s dot oracleFail).1 = false ∧
    insertA s.notify dot.fd dot.cid = s.notify ∧
    (registerTimer s dot oracleFail).2.1.notify = eraseA s.notify dot.fd ∧
    dot.fd ∉ keysOf (registerTimer s dot oracleFail).2.1.notify ∧
    (registerTimer s dot oracleFail).2.1.armed = s.armed ∧
    dot.fd ∈ (registerTimer s dot oracleFail).2.1.armed := by
  have ha : armAttempt s.epfdValid s.armed oracleFail dot.fd = (false, s.armed) := by
    cases hv : s.epfdValid <;> simp [armAttempt, harm]
  have hins : insertA s.notify dot.fd dot.cid = s.notify := insertA_noop _ _ _ hkey
  rw [registerTimer_eq, ha, if_neg (fun hc => Bool.noConfusion hc)]
  refine ⟨rfl, hins, by rw [hins], ?_, rfl, harm⟩
  rw [hins, mem_keysOf_eraseA]
  rintro ⟨_, hne⟩
  exact hne rfl

/-- Witness for C10: the reactor with stop descriptor 0 and container 1
registered under handle 5; a second register of the same container
returns false, leaves 5 out of the map and still armed. -/
theorem registerTimer_duplicate_rollback_witness :
    (registerTimer ⟨true, 0, true, true, 31, [(5, 1)], [5, 0]⟩ ⟨1, 5⟩ false).1 = false ∧
    insertA [(5, 1)] 5 1 = [(5, 1)] ∧
    (registerTimer ⟨true, 0, true, true, 31, [(5, 1)], [5, 0]⟩ ⟨1, 5⟩ false).2.1.notify =
      eraseA [(5, 1)] 5 ∧
    (5 : Int) ∉
      keysOf (registerTimer ⟨true, 0, true, true, 31, [(5, 1)], [5, 0]⟩ ⟨1, 5⟩ false).2.1.notify ∧
    (registerTimer ⟨true, 0, true, true, 31, [(5, 1)], [5, 0]⟩ ⟨1, 5⟩ false).2.1.armed =
      [5, 0] ∧
    (5 : Int) ∈
      (registerTimer ⟨true, 0, true, true, 31, [(5, 1)], [5, 0]⟩ ⟨1, 5⟩ false).2.1.armed :=
  registerTimer_duplicate_rollback ⟨true, 0, true, true, 31, [(5, 1)], [5, 0]⟩ ⟨1, 5⟩ false
    (by decide) (by decide)

/-- C5: after a failed construction step (here: eventfd creation
failing) the instance is inert — register and unregister both return
false — but destruction is not safe: the destructor joins the
never-started thread, which terminates the process. -/
theorem construction_failure_destruction_terminates :
    (registerTimer (constructModel ⟨false, true, true, true⟩ 0) ⟨1, 5⟩ false).1 = false ∧
    (unregisterTimer (constructModel ⟨false, true, true, true⟩ 0) ⟨1, 5⟩).1 = false ∧
    (registerTimer (constructModel ⟨true, false, true, true⟩ 0) ⟨1, 5⟩ false).1 = false ∧
    (unregisterTimer (constructModel ⟨true, true, false, true⟩ 0) ⟨1, 5⟩).1 = false ∧
    destructModel (constructModel ⟨false, true, true, true⟩ 0) = DtorOutcome.terminated ∧
    destructModel (constructModel ⟨true, false, true, true⟩ 0) = DtorOutcome.terminated ∧
    destructModel (constructModel ⟨true, true, false, true⟩ 0) = DtorOutcome.terminated := by
  decide

/-- C6 (amended): without the Linux kernel primitives every operation
compiles and runs as a no-op: construction creates no resources,
destruction attempts no write and no join and completes safely, and
register/unregister leave the state untouched — but they return
success (true), not failure. -/
theorem no_linux_ops_noop (s : TORState) (dot : DataObject) :
    registerTimerNoLinux s dot = (true, s) ∧
    unregisterTimerNoLinux s dot = (true, s) ∧
    constructNoLinux.notify = [] ∧
    constructNoLinux.thrdJoinable = false ∧
    destructNoLinux = DtorOutcome.completed none :=
  ⟨rfl, rfl, rfl, rfl, rfl⟩

/-- Counterexample to C6 as stated: on a platform without the required
kernel primitives, register and unregister return success, not
failure. -/
theorem no_linux_register_returns_success :
    (registerTimerNoLinux constructNoLinux ⟨1, 5⟩).1 = true ∧
    (unregisterTimerNoLinux constructNoLinux ⟨1, 5⟩).1 = true := by
  decide

/-- C9 (amended): the service thread runs at the fixed realtime
priority 31, one level above the dispatch priority of the hub and
above the default priority 0; a failure to apply the priority leaves
the construction intact (the thread still runs, at default priority),
and a successful construction applies exactly that priority. -/
theorem rt_prio_one_above_hub :
    RT_PRIO = DOR_RT_PRIO + 1 ∧
    DOR_RT_PRIO < RT_PRIO ∧
    0 < RT_PRIO ∧
    (constructModel ⟨true, true, true, false⟩ 0).thrdJoinable = true ∧
    (constructModel ⟨true, true, true, false⟩ 0).threadPrio = 0 ∧
    (constructModel allOk 0).threadPrio = RT_PRIO := by
  decide

/-- Counterexample to C9 as stated: the service thread priority is not
strictly below the dispatch priority of the hub. -/
theorem rt_prio_not_below_hub : ¬ ( RT_PRIO < DOR_RT_PRIO ) := by
  decide

end TimerReactor
